import Mathlib

/-!
Verification of the admission-control and result-reuse layer of the
deadlock-build-creator HTTP analytics gateway.

The development shallowly embeds, in Lean 4:
 * the rate-limiter data model (`Quota`, `Status`, `RateWindow`) and its
   scoped admission algorithm,
 * the 429 error-response construction of `src/error.rs`,
 * the cache-control header composition attached to route groups,
 * the single-flight TTL cache behind the `run_query` functions,
 * the timestamp normalization and protected-user filtering of the
   statistics handlers.

Rust machine integers (`u32`, `u64`, `i64`) are modelled as `Nat`/`Int`;
none of the modelled arithmetic approaches the overflow boundary, and the
spec-level statements are about orderings and small counters.  `Duration`
values are modelled in whole seconds (`as_secs`).
-/

namespace DeadlockAPI

/-! ## Rate limiter data model

The module `services/rate_limiter` itself is not part of the source tree
here; only its callers (`src/error.rs`, `src/lib.rs`) are.  The data model
below is therefore modelled from the spec (§3, §4.2). -/

/-- Modelled from the spec: `Quota { scope, limit: u32, period: Duration }`
(§3).  The scope kind does not affect the arithmetic and is carried by the
surrounding structure; `period` is in whole seconds. -/
structure Quota where
  limit : Nat
  period : Nat
deriving DecidableEq, Repr

/-- Modelled from the spec: `RateLimitStatus { quota, requests: u32,
oldest_request: Timestamp }` (§3), the `rate_limiter::Status` consumed by
`src/error.rs`. -/
structure Status where
  quota : Quota
  requests : Nat
  oldest_request : Nat
deriving DecidableEq, Repr

/-- Modelled from the spec: `remaining = max(0, quota.limit - requests)`
(§3, §4.2); `u32` saturating subtraction is `Nat` truncated subtraction. -/
def Status.remaining (s : Status) : Nat :=
  s.quota.limit - s.requests

/-! ## JSON values and the error responses of `src/error.rs` -/

/-- A JSON tree, sufficient for the bodies built with `serde_json::json!`
in `src/error.rs`.  Object fields are kept in construction order; JSON
object identity does not depend on field order. -/
inductive Json where
  | num (n : Nat)
  | str (s : String)
  | obj (fields : List (String × Json))

/-- The `APIError` variants of `src/error.rs` that reach the response
builder paths modelled here (status codes as plain naturals). -/
inductive APIError where
  | status (status : Nat)
  | statusMsg (status : Nat) (message : String)
  | rateLimitExceeded (status : Status)
  | internalError (message : String)
deriving DecidableEq, Repr

/-- `APIError::protected_user` from `src/error.rs` (403 = `FORBIDDEN`). -/
def APIError.protected_user : APIError :=
  .statusMsg 403 "The requested user is protected."

/-- `APIError::into_response` from `src/error.rs`, restricted to the
modelled variants: the HTTP status code and the JSON body (`none` for the
empty body of the bare `Status` arm).  The `RateLimitExceeded` arm builds
the body of `src/error.rs` lines 131-146, with `period.as_secs()` the
whole-second period. -/
def APIError.into_response : APIError → Nat × Option Json
  | .status s => (s, none)
  | .statusMsg s m =>
      (s, some (.obj [("status", .num s), ("error", .str m)]))
  | .rateLimitExceeded st =>
      (429, some (.obj [
        ("status", .num 429),
        ("error", .obj [
          ("quota", .obj [
            ("limit", .num st.quota.limit),
            ("period", .num st.quota.period)]),
          ("requests", .num st.requests),
          ("remaining", .num st.remaining)])]))
  | .internalError m =>
      (500, some (.obj [("status", .num 500),
        ("error", .str ("Internal server error: " ++ m))]))

/-! ## Timestamp normalization (C9)

`get_item_stats` (`item_stats.rs` 391-392), `get_item_timing_stats`
(`item_timing_stats.rs` 288-289) and `build_creator_items`
(`handlers.rs` 183-184) all run the same two lines before building the
query.  Rust `%` on `i64` is truncated remainder, `Int.tmod`. -/

/-- `query.min_unix_timestamp.map(|v| v - v % 3600)`. -/
def normalize_min_unix_timestamp (v : Int) : Int :=
  v - Int.tmod v 3600

/-- `query.max_unix_timestamp.map(|v| v + 3600 - v % 3600)`. -/
def normalize_max_unix_timestamp (v : Int) : Int :=
  v + 3600 - Int.tmod v 3600

/-- The pair of assignments performed by every stats handler on
`(min_unix_timestamp, max_unix_timestamp)`. -/
def normalize_timestamps (minT maxT : Option Int) : Option Int × Option Int :=
  (minT.map normalize_min_unix_timestamp, maxT.map normalize_max_unix_timestamp)

/-! ## Cache-Control composition (C8)

`middleware/cache.rs` (`CacheControlMiddleware`) is not in the source
tree; its configuration sites are (`src/lib.rs` 110-114,
`routes/v1/analytics/mod.rs` 59-63).  Modelled from the spec (§4.3, §6). -/

/-- `CacheDirective` from the spec (§3), durations in whole seconds. -/
structure CacheDirective where
  max_age : Nat
  stale_while_revalidate : Nat
  stale_if_error : Nat
deriving DecidableEq, Repr

/-- A response as seen by the middleware: status code and header list. -/
structure HttpResponse where
  status : Nat
  headers : List (String × String)
deriving DecidableEq, Repr

/-- Modelled from the spec: the `Cache-Control` value emitted by the
composer, `max-age=<n>, stale-while-revalidate=<n>, stale-if-error=<n>`
(§6). -/
def cache_control_value (d : CacheDirective) : String :=
  "max-age=" ++ toString d.max_age ++
  ", stale-while-revalidate=" ++ toString d.stale_while_revalidate ++
  ", stale-if-error=" ++ toString d.stale_if_error

/-- Modelled from the spec: `CacheControlMiddleware` decorates successful
(2xx) responses with the composed directive; an already-present
`Cache-Control` header (set by an inner, more specific route group) wins
(§4.3), so the composer only adds the header when none is present. -/
def apply_cache_control (d : CacheDirective) (r : HttpResponse) : HttpResponse :=
  if 200 ≤ r.status ∧ r.status < 300 ∧ (r.headers.lookup "Cache-Control").isNone then
    { r with headers := ("Cache-Control", cache_control_value d) :: r.headers }
  else
    r

/-! ## Rate limiter admission algorithm (C5, C6, C7)

Modelled from the spec (§4.2, §6): the Quota Store's atomic
`incr_with_expiry`, single-scope admission, and the fixed
Caller-Identity → Credential → Global evaluation order. -/

/-- `RateWindow { scope_id, count: u32, window_start }` (§3); the
`scope_id` is the key under which the window is stored and is carried by
the surrounding state. -/
structure RateWindow where
  count : Nat
  window_start : Nat
deriving DecidableEq, Repr

/-- Modelled from the spec: `incr_with_expiry` (§6) — atomically
increment the counter; if no window exists (or the store TTL equal to
`period` has elapsed, resetting the whole window, §4.2 step 2), create one
with `count = 1`, `window_start = now`. -/
def incr_with_expiry (w : Option RateWindow) (now period : Nat) : RateWindow :=
  match w with
  | some w =>
      if now < w.window_start + period then
        { count := w.count + 1, window_start := w.window_start }
      else
        { count := 1, window_start := now }
  | none => { count := 1, window_start := now }

/-- Modelled from the spec: one scope's admission check (§4.2 steps 2-3).
Returns the decision together with the stored window; on rejection the
increment that caused the overflow is not rolled back, so the incremented
window is stored either way. -/
def admit_scope (w : Option RateWindow) (now : Nat) (q : Quota) :
    Except Status Status × RateWindow :=
  let w' := incr_with_expiry w now q.period
  let st : Status := ⟨q, w'.count, w'.window_start⟩
  ((if q.limit < w'.count then .error st else .ok st), w')

/-- The per-request windows of the three configured scopes, in evaluation
order: Caller-Identity/IP, Credential, Global (§4.2). -/
structure LimiterState where
  ip_window : Option RateWindow
  credential_window : Option RateWindow
  global_window : Option RateWindow
deriving DecidableEq, Repr

/-- Modelled from the spec: full admission (§4.2 steps 1-5) — scopes
evaluated in the fixed order IP, Credential, Global; the first rejecting
scope short-circuits, leaving later scopes unevaluated and their counters
untouched, and its status is the one surfaced. -/
def admit_request (st : LimiterState) (now : Nat) (qip qcred qglob : Quota) :
    Except Status Unit × LimiterState :=
  match admit_scope st.ip_window now qip with
  | (.error s, w1) => (.error s, { st with ip_window := some w1 })
  | (.ok _, w1) =>
    match admit_scope st.credential_window now qcred with
    | (.error s, w2) =>
        (.error s, { st with ip_window := some w1, credential_window := some w2 })
    | (.ok _, w2) =>
      match admit_scope st.global_window now qglob with
      | (.error s, w3) => (.error s, ⟨some w1, some w2, some w3⟩)
      | (.ok _, w3) => (.ok (), ⟨some w1, some w2, some w3⟩)

/-- The stored window of one scope after `n` back-to-back requests at
time 0, starting from an absent window. -/
def window_after (q : Quota) : Nat → Option RateWindow
  | 0 => none
  | n + 1 => some (admit_scope (window_after q n) 0 q).2

/-- The admission decision the `(n+1)`-th back-to-back request at time 0
receives from one scope. -/
def nth_decision (q : Quota) (n : Nat) : Except Status Status :=
  (admit_scope (window_after q n) 0 q).1

/-! ## Single-flight TTL cache, sequential lookup/store path (C2, C3)

The `#[cached(ty = "TimedCache<String, _>", result = true, sync_writes =
"by_key")] async fn run_query` functions (`item_stats.rs` 372-385,
`item_upgrade_stats.rs` 253-271, `build_creator/handlers.rs` 163-176) are
expanded by the external `cached` crate, whose code is not in the source
tree.  Modelled from the spec (§4.1): entries live `ttl` from creation,
expiry is lazy, and only successful results are stored (`result = true`). -/

/-- A timed cache: association list of `(key, value, created_at)`.  The
`insert` path keeps at most one entry per key. -/
structure TimedCache (V : Type) where
  entries : List (String × V × Nat)
deriving DecidableEq, Repr

/-- Lazy-expiry lookup (§4.1): an entry is returned only while
`now < created_at + ttl`; an older entry is treated as absent.

The cache is over a generic value type. -/
def TimedCache.lookup (c : TimedCache V) (k : String) (now ttl : Nat) : Option V :=
  match c.entries.find? (fun e => e.1 == k) with
  | some e => if now < e.2.2 + ttl then some e.2.1 else none
  | none => none

/-- Store a successful result with creation time `now` (expiry
`now + ttl` under `lookup`), replacing any previous entry for the key. -/
def TimedCache.insert (c : TimedCache V) (k : String) (v : V) (now : Nat) :
    TimedCache V :=
  ⟨(k, v, now) :: c.entries.filter (fun e => e.1 != k)⟩

/-- Modelled from the spec: `get_or_compute(key, ttl, compute)` (§4.1),
sequential path (a single caller; the concurrent interleavings are the
`SingleFlight` transition system below).  Returns the delivered result,
the cache afterwards, and whether `compute` was invoked.  A live entry is
returned without invoking `compute`; on a miss `compute` runs, and only a
successful result is stored (`result = true`: failures are not cached). -/
def get_or_compute (c : TimedCache V) (k : String) (now ttl : Nat)
    (compute : Except E V) : (Except E V × TimedCache V) × Bool :=
  match c.lookup k now ttl with
  | some v => ((.ok v, c), false)
  | none =>
    match compute with
    | .ok v => ((.ok v, c.insert k v now), true)
    | .error e => ((.error e, c), true)

/-! ## Single-flight concurrency model (C1)

Modelled from the spec (§4.1, §5): the check "is there already an
in-flight computation for this key" is atomic with registering a new
in-flight slot; waiters suspend on the slot and receive the resolved
result.  One key is modelled (all `N` callers use the same key); `compute`
is the deterministic result of the one computation. -/

namespace SingleFlight

/-- The phase of one caller of `get_or_compute`. -/
inductive Phase (V : Type) where
  | start
  | waiting
  | running
  | done (v : V)
deriving DecidableEq, Repr

/-- The cache-plus-in-flight-slot state for one key, together with the
callers' phases.  `invocations` counts how often `compute` was started. -/
structure SFState (V : Type) where
  cached : Option V
  slot_active : Bool
  invocations : Nat
  procs : List (Phase V)
deriving DecidableEq, Repr

/-- Releasing the waiters of a resolved slot with its result (§4.1). -/
def release (v : V) : Phase V → Phase V
  | .waiting => .done v
  | p => p

/-- One interleaved step of the single-flight cache (§4.1, §5):
`hit` returns a live entry; `register` atomically creates the in-flight
slot, invoking `compute`; `join` suspends a caller on an existing slot;
`resolve` completes the computation, stores the entry and releases every
waiter with the same result. -/
inductive Step (compute : V) : SFState V → SFState V → Prop where
  | hit (s : SFState V) (i : Nat) (v : V) :
      s.procs[i]? = some .start → s.cached = some v →
      Step compute s { s with procs := s.procs.set i (.done v) }
  | register (s : SFState V) (i : Nat) :
      s.procs[i]? = some .start → s.cached = none → s.slot_active = false →
      Step compute s { s with slot_active := true,
                              invocations := s.invocations + 1,
                              procs := s.procs.set i .running }
  | join (s : SFState V) (i : Nat) :
      s.procs[i]? = some .start → s.cached = none → s.slot_active = true →
      Step compute s { s with procs := s.procs.set i .waiting }
  | resolve (s : SFState V) (i : Nat) :
      s.procs[i]? = some .running →
      Step compute s { cached := some compute,
                       slot_active := false,
                       invocations := s.invocations,
                       procs := (s.procs.set i (.done compute)).map (release compute) }

/-- Initial state for `n` concurrent callers of the same key: no entry,
no slot, no invocation. -/
def init (V : Type) (n : Nat) : SFState V :=
  ⟨none, false, 0, List.replicate n .start⟩

/-- Any interleaving of the callers' steps. -/
abbrev Steps (compute : V) : SFState V → SFState V → Prop :=
  Relation.ReflTransGen (Step compute)

/-- The inductive invariant of the single-flight state: `compute` starts
at most once; before it starts nothing has happened; the cache only ever
holds the computed result; once an invocation happened, the slot or the
entry records it; every finished caller holds the computed result. -/
def Inv (compute : V) (s : SFState V) : Prop :=
  s.invocations ≤ 1 ∧
  (s.invocations = 0 →
    s.slot_active = false ∧ s.cached = none ∧ ∀ p ∈ s.procs, p = Phase.start) ∧
  (s.cached = none ∨ s.cached = some compute) ∧
  (1 ≤ s.invocations → s.slot_active = true ∨ s.cached.isSome) ∧
  (∀ v : V, Phase.done v ∈ s.procs → v = compute)

end SingleFlight

/-! ## Protected-user filtering of the item_stats handler (C10) -/

/-- The `account_ids` filtering of `item_stats` (`item_stats.rs`
426-439): drop every protected id; if nothing remains, fail with
`APIError::protected_user` before any query is built. -/
def item_stats_account_check (account_ids : Option (List Nat))
    (protected_users : List Nat) : Except APIError (Option (List Nat)) :=
  match account_ids with
  | some ids =>
      let filtered := ids.filter (fun id => !protected_users.contains id)
      if filtered.isEmpty then .error APIError.protected_user
      else .ok (some filtered)
  | none => .ok none

/-- The deprecated single `account_id` check of `item_stats`
(`item_stats.rs` 440-448). -/
def item_stats_account_id_check (account_id : Option Nat)
    (protected_users : List Nat) : Except APIError Unit :=
  match account_id with
  | some aid =>
      if protected_users.contains aid then .error APIError.protected_user
      else .ok ()
  | none => .ok ()

/-- The `item_stats` handler (`item_stats.rs` 422-450) around the
out-of-scope templating step: `run` stands for
`get_item_stats`/`build_query`/`run_query` (the spec's Query Executor,
§1), applied to the account ids that survive filtering. -/
def item_stats (account_ids : Option (List Nat)) (account_id : Option Nat)
    (protected_users : List Nat) (run : Option (List Nat) → α) :
    Except APIError α :=
  match item_stats_account_check account_ids protected_users with
  | .error e => .error e
  | .ok ids =>
    match item_stats_account_id_check account_id protected_users with
    | .error e => .error e
    | .ok _ => .ok (run ids)

/-! ## Theorems -/

/-- Claim C9: before building the cache-keyed query string, every stats
handler replaces `min_unix_timestamp = Some v` by `Some (v - v % 3600)`
and `max_unix_timestamp = Some v` by `Some (v + 3600 - v % 3600)`; for
every non-negative `v` both results are multiples of 3600, the normalized
minimum is at most `v` and the normalized maximum exceeds `v`, so
normalization only widens the queried time window. -/
theorem timestamp_normalization_widens (v : Int) (hv : 0 ≤ v) :
    normalize_timestamps (some v) (some v) =
      (some (normalize_min_unix_timestamp v), some (normalize_max_unix_timestamp v)) ∧
    (3600 : Int) ∣ normalize_min_unix_timestamp v ∧
    (3600 : Int) ∣ normalize_max_unix_timestamp v ∧
    normalize_min_unix_timestamp v ≤ v ∧
    v < normalize_max_unix_timestamp v := by
  have hmod : Int.tmod v 3600 = v % 3600 := Int.tmod_eq_emod hv (by norm_num)
  refine ⟨rfl, ?_, ?_, ?_, ?_⟩ <;>
    simp only [normalize_min_unix_timestamp, normalize_max_unix_timestamp, hmod] <;>
    omega

/-- Witness for C9 at `v = 5000`: the normalized bounds are 3600 and
7200. -/
theorem timestamp_normalization_widens_witness :
    (0 : Int) ≤ 5000 ∧
    normalize_min_unix_timestamp 5000 = 3600 ∧
    normalize_max_unix_timestamp 5000 = 7200 ∧
    ((3600 : Int) ∣ normalize_min_unix_timestamp 5000 ∧
     (3600 : Int) ∣ normalize_max_unix_timestamp 5000 ∧
     normalize_min_unix_timestamp 5000 ≤ 5000 ∧
     (5000 : Int) < normalize_max_unix_timestamp 5000) :=
  ⟨by norm_num, by decide, by decide,
    ((timestamp_normalization_widens 5000 (by norm_num)).2)⟩

/-- Claim C5: for every rate-limit status value, `remaining()` equals
`max(0, quota.limit - requests)`; in particular it is 0 whenever
`requests ≥ limit` and never underflows. -/
theorem status_remaining_eq_max (s : Status) :
    (s.remaining : Int) = max 0 ((s.quota.limit : Int) - (s.requests : Int)) ∧
    (s.quota.limit ≤ s.requests → s.remaining = 0) := by
  unfold Status.remaining
  omega

/-- Witness for C5 at `limit = 100`, `requests = 103`: `remaining` is 0,
no underflow. -/
theorem status_remaining_eq_max_witness :
    (Status.remaining ⟨⟨100, 60⟩, 103, 0⟩ : Int) = max 0 ((100 : Int) - 103) ∧
    Status.remaining ⟨⟨100, 60⟩, 103, 0⟩ = 0 :=
  ⟨(status_remaining_eq_max ⟨⟨100, 60⟩, 103, 0⟩).1,
   (status_remaining_eq_max ⟨⟨100, 60⟩, 103, 0⟩).2 (by norm_num)⟩

/-- Claim C4: every rate-limit rejection surfaces as HTTP 429 with JSON
body exactly of the shape
`{"status": 429, "error": {"quota": {"limit": <u32>, "period": <seconds>},
"requests": <u32>, "remaining": <u32>}}`, the period in whole seconds and
`remaining` the saturating `limit - requests`. -/
theorem rate_limit_rejection_response (st : Status) :
    (APIError.rateLimitExceeded st).into_response =
      (429, some (.obj [
        ("status", .num 429),
        ("error", .obj [
          ("quota", .obj [
            ("limit", .num st.quota.limit),
            ("period", .num st.quota.period)]),
          ("requests", .num st.requests),
          ("remaining", .num (st.quota.limit - st.requests))])])) := rfl

/-- Claim C8: in a route group configured with
`{max_age: a, stale_while_revalidate: b, stale_if_error: c}`, every
successful response gets exactly the header
`Cache-Control: max-age=<a>, stale-while-revalidate=<b>,
stale-if-error=<c>`. -/
theorem cache_control_header (d : CacheDirective) (r : HttpResponse)
    (hlo : 200 ≤ r.status) (hhi : r.status < 300)
    (hfresh : r.headers.lookup "Cache-Control" = none) :
    (apply_cache_control d r).headers.lookup "Cache-Control" =
      some ("max-age=" ++ toString d.max_age ++
            ", stale-while-revalidate=" ++ toString d.stale_while_revalidate ++
            ", stale-if-error=" ++ toString d.stale_if_error) := by
  unfold apply_cache_control
  rw [if_pos ⟨hlo, hhi, by rw [hfresh]; rfl⟩]
  simp [List.lookup, cache_control_value]

/-- Witness for C8: directive `{120, 300, 600}` on a 200 response yields
exactly `max-age=120, stale-while-revalidate=300, stale-if-error=600`. -/
theorem cache_control_header_witness :
    (200 ≤ 200 ∧ 200 < 300) ∧
    (apply_cache_control ⟨120, 300, 600⟩ ⟨200, []⟩).headers.lookup "Cache-Control" =
      some "max-age=120, stale-while-revalidate=300, stale-if-error=600" := by
  refine ⟨⟨by norm_num, by norm_num⟩, ?_⟩
  rw [cache_control_header ⟨120, 300, 600⟩ ⟨200, []⟩ (by norm_num) (by norm_num) rfl]
  rfl

/-- In a window whose period has not elapsed, `n` back-to-back requests
leave a stored count of `n`. -/
theorem window_after_eq (q : Quota) (hq : 0 < q.period) (n : Nat) :
    window_after q n = if n = 0 then none else some ⟨n, 0⟩ := by
  induction n with
  | zero => rfl
  | succ n ih =>
    simp only [window_after, ih, admit_scope]
    cases n with
    | zero => simp [incr_with_expiry]
    | succ m => simp [incr_with_expiry, hq]

/-- Claim C6: for a quota with limit `L`, the 1st through `L`-th requests
in a window are admitted with `remaining = L-1, …, 0`; the `(L+1)`-th is
rejected with `requests = L+1` and `remaining = 0`, and the overflowing
increment is not rolled back (the stored count stays `L+1`). -/
theorem rate_limit_boundary (q : Quota) (hq : 0 < q.period) :
    (∀ k, 1 ≤ k → k ≤ q.limit →
      nth_decision q (k - 1) = .ok ⟨q, k, 0⟩ ∧
      Status.remaining ⟨q, k, 0⟩ = q.limit - k) ∧
    nth_decision q q.limit = .error ⟨q, q.limit + 1, 0⟩ ∧
    Status.remaining ⟨q, q.limit + 1, 0⟩ = 0 ∧
    window_after q (q.limit + 1) = some ⟨q.limit + 1, 0⟩ := by
  have hwin : ∀ n, window_after q n = if n = 0 then none else some ⟨n, 0⟩ :=
    window_after_eq q hq
  have hdec : ∀ n, nth_decision q n =
      if q.limit < n + 1 then .error ⟨q, n + 1, 0⟩ else .ok ⟨q, n + 1, 0⟩ := by
    intro n
    unfold nth_decision admit_scope
    rw [hwin n]
    cases n with
    | zero => simp [incr_with_expiry]
    | succ m => simp [incr_with_expiry, hq]
  refine ⟨?_, ?_, ?_, ?_⟩
  · intro k h1 hk
    constructor
    · have hk1 : k - 1 + 1 = k := by omega
      rw [hdec (k - 1), hk1, if_neg (by omega)]
    · rfl
  · rw [hdec q.limit, if_pos (by omega)]
  · show q.limit - (q.limit + 1) = 0
    omega
  · rw [hwin (q.limit + 1), if_neg (by omega)]

/-- Witness for C6 with `quota = {limit: 3, period: 60}`: requests 1-3
admitted with remaining 2, 1, 0; the 4th rejected with `requests = 4`,
`remaining = 0`. -/
theorem rate_limit_boundary_witness :
    0 < 60 ∧
    nth_decision ⟨3, 60⟩ 0 = .ok ⟨⟨3, 60⟩, 1, 0⟩ ∧
    Status.remaining ⟨⟨3, 60⟩, 1, 0⟩ = 2 ∧
    nth_decision ⟨3, 60⟩ 1 = .ok ⟨⟨3, 60⟩, 2, 0⟩ ∧
    Status.remaining ⟨⟨3, 60⟩, 2, 0⟩ = 1 ∧
    nth_decision ⟨3, 60⟩ 2 = .ok ⟨⟨3, 60⟩, 3, 0⟩ ∧
    Status.remaining ⟨⟨3, 60⟩, 3, 0⟩ = 0 ∧
    nth_decision ⟨3, 60⟩ 3 = .error ⟨⟨3, 60⟩, 4, 0⟩ ∧
    Status.remaining ⟨⟨3, 60⟩, 4, 0⟩ = 0 ∧
    window_after ⟨3, 60⟩ 4 = some ⟨4, 0⟩ := by
  have h := rate_limit_boundary ⟨3, 60⟩ (by norm_num)
  exact ⟨by norm_num,
    (h.1 1 (by norm_num) (by norm_num)).1, (h.1 1 (by norm_num) (by norm_num)).2,
    (h.1 2 (by norm_num) (by norm_num)).1, (h.1 2 (by norm_num) (by norm_num)).2,
    (h.1 3 (by norm_num) (by norm_num)).1, (h.1 3 (by norm_num) (by norm_num)).2,
    h.2.1, h.2.2.1, h.2.2.2⟩

/-- Claim C7: scopes are evaluated in the fixed order
Caller-Identity/IP, Credential, Global; whichever scope rejects first
short-circuits the evaluation — no later scope is evaluated or its
counter incremented — and that first violated scope's status is the one
surfaced: when the IP scope rejects, the credential and global windows
stay untouched; when the IP scope passes and the Credential scope
rejects, the global window stays untouched; when only the Global scope
rejects, its status is surfaced. -/
theorem scope_short_circuit (st : LimiterState) (now : Nat)
    (qip qcred qglob : Quota) (s : Status) :
    ((admit_scope st.ip_window now qip).1 = .error s →
      (admit_request st now qip qcred qglob).1 = .error s ∧
      (admit_request st now qip qcred qglob).2.credential_window = st.credential_window ∧
      (admit_request st now qip qcred qglob).2.global_window = st.global_window) ∧
    (∀ s1 : Status, (admit_scope st.ip_window now qip).1 = .ok s1 →
      (admit_scope st.credential_window now qcred).1 = .error s →
      (admit_request st now qip qcred qglob).1 = .error s ∧
      (admit_request st now qip qcred qglob).2.global_window = st.global_window) ∧
    (∀ s1 s2 : Status, (admit_scope st.ip_window now qip).1 = .ok s1 →
      (admit_scope st.credential_window now qcred).1 = .ok s2 →
      (admit_scope st.global_window now qglob).1 = .error s →
      (admit_request st now qip qcred qglob).1 = .error s) := by
  refine ⟨?_, ?_, ?_⟩
  · intro hrej
    rcases hpair : admit_scope st.ip_window now qip with ⟨r1, w1⟩
    have h1 : r1 = .error s := by rw [hpair] at hrej; exact hrej
    subst h1
    refine ⟨?_, ?_, ?_⟩ <;> simp [admit_request, hpair]
  · intro s1 hok hrej
    rcases hpair1 : admit_scope st.ip_window now qip with ⟨r1, w1⟩
    have h1 : r1 = .ok s1 := by rw [hpair1] at hok; exact hok
    subst h1
    rcases hpair2 : admit_scope st.credential_window now qcred with ⟨r2, w2⟩
    have h2 : r2 = .error s := by rw [hpair2] at hrej; exact hrej
    subst h2
    refine ⟨?_, ?_⟩ <;> simp [admit_request, hpair1, hpair2]
  · intro s1 s2 hok1 hok2 hrej
    rcases hpair1 : admit_scope st.ip_window now qip with ⟨r1, w1⟩
    have h1 : r1 = .ok s1 := by rw [hpair1] at hok1; exact hok1
    subst h1
    rcases hpair2 : admit_scope st.credential_window now qcred with ⟨r2, w2⟩
    have h2 : r2 = .ok s2 := by rw [hpair2] at hok2; exact hok2
    subst h2
    rcases hpair3 : admit_scope st.global_window now qglob with ⟨r3, w3⟩
    have h3 : r3 = .error s := by rw [hpair3] at hrej; exact hrej
    subst h3
    simp [admit_request, hpair1, hpair2, hpair3]

/-- Witness for C7, one concrete instance per rejecting scope: an IP
window at its limit of 1 rejects with the credential and global counters
untouched; with a fresh IP window, a credential window at its limit
rejects with the global counter untouched and the credential status
surfaced; with fresh IP and credential windows, a global window at its
limit rejects with its own status surfaced. -/
theorem scope_short_circuit_witness :
    (admit_scope (some ⟨1, 0⟩) 0 ⟨1, 60⟩).1 = .error ⟨⟨1, 60⟩, 2, 0⟩ ∧
    (admit_request ⟨some ⟨1, 0⟩, none, none⟩ 0 ⟨1, 60⟩ ⟨10, 60⟩ ⟨10, 60⟩).1 =
      .error ⟨⟨1, 60⟩, 2, 0⟩ ∧
    (admit_request ⟨some ⟨1, 0⟩, none, none⟩ 0 ⟨1, 60⟩ ⟨10, 60⟩ ⟨10, 60⟩).2.credential_window
      = none ∧
    (admit_request ⟨some ⟨1, 0⟩, none, none⟩ 0 ⟨1, 60⟩ ⟨10, 60⟩ ⟨10, 60⟩).2.global_window
      = none ∧
    (admit_scope (none : Option RateWindow) 0 ⟨10, 60⟩).1 = .ok ⟨⟨10, 60⟩, 1, 0⟩ ∧
    (admit_request ⟨none, some ⟨1, 0⟩, none⟩ 0 ⟨10, 60⟩ ⟨1, 60⟩ ⟨10, 60⟩).1 =
      .error ⟨⟨1, 60⟩, 2, 0⟩ ∧
    (admit_request ⟨none, some ⟨1, 0⟩, none⟩ 0 ⟨10, 60⟩ ⟨1, 60⟩ ⟨10, 60⟩).2.global_window
      = none ∧
    (admit_request ⟨none, none, some ⟨1, 0⟩⟩ 0 ⟨10, 60⟩ ⟨10, 60⟩ ⟨1, 60⟩).1 =
      .error ⟨⟨1, 60⟩, 2, 0⟩ := by
  have hA := (scope_short_circuit ⟨some ⟨1, 0⟩, none, none⟩ 0 ⟨1, 60⟩ ⟨10, 60⟩ ⟨10, 60⟩
    ⟨⟨1, 60⟩, 2, 0⟩).1 rfl
  have hB := (scope_short_circuit ⟨none, some ⟨1, 0⟩, none⟩ 0 ⟨10, 60⟩ ⟨1, 60⟩ ⟨10, 60⟩
    ⟨⟨1, 60⟩, 2, 0⟩).2.1 ⟨⟨10, 60⟩, 1, 0⟩ rfl rfl
  have hC := (scope_short_circuit ⟨none, none, some ⟨1, 0⟩⟩ 0 ⟨10, 60⟩ ⟨10, 60⟩ ⟨1, 60⟩
    ⟨⟨1, 60⟩, 2, 0⟩).2.2 ⟨⟨10, 60⟩, 1, 0⟩ ⟨⟨10, 60⟩, 1, 0⟩ rfl rfl rfl
  exact ⟨rfl, hA.1, hA.2.1, hA.2.2, rfl, hB.1, hB.2, hC⟩

/-- Looking up a freshly inserted key succeeds exactly until `now + ttl`:
the stored expiry of a successful result. -/
theorem TimedCache.lookup_insert (c : TimedCache V) (k : String) (v : V)
    (now t ttl : Nat) :
    (c.insert k v now).lookup k t ttl = if t < now + ttl then some v else none := by
  unfold TimedCache.insert TimedCache.lookup
  simp

/-- A key that is absent (or expired) stays absent at any later time if
nothing is inserted. -/
theorem TimedCache.lookup_none_mono (c : TimedCache V) (k : String)
    (t1 t2 ttl : Nat) (hle : t1 ≤ t2) (h : c.lookup k t1 ttl = none) :
    c.lookup k t2 ttl = none := by
  unfold TimedCache.lookup at h ⊢
  cases hfind : c.entries.find? (fun e => e.1 == k) with
  | none => rfl
  | some e =>
    rw [hfind] at h
    have h' : (if t1 < e.2.2 + ttl then some e.2.1 else none) = none := h
    show (if t2 < e.2.2 + ttl then some e.2.1 else none) = none
    split at h'
    · exact absurd h' (by simp)
    · rw [if_neg (by omega)]

/-- Claim C3: a lookup for a key whose entry was created less than `ttl`
ago returns the stored value without invoking `compute`; a lookup for a
key whose entry is past `created_at + ttl` treats it as absent and
invokes `compute` afresh. -/
theorem ttl_cache_semantics (c : TimedCache V) (k : String) (v : V)
    (created now ttl : Nat) (compute : Except E V)
    (hentry : c.entries.find? (fun e => e.1 == k) = some (k, v, created)) :
    (now < created + ttl →
      get_or_compute c k now ttl compute = ((.ok v, c), false)) ∧
    (created + ttl ≤ now →
      (get_or_compute c k now ttl compute).2 = true ∧
      (get_or_compute c k now ttl compute).1.1 = compute) := by
  have hlook : c.lookup k now ttl = if now < created + ttl then some v else none := by
    unfold TimedCache.lookup
    rw [hentry]
  constructor
  · intro hfresh
    unfold get_or_compute
    rw [hlook, if_pos hfresh]
  · intro hexp
    have hnone : c.lookup k now ttl = none := by rw [hlook, if_neg (by omega)]
    constructor
    · unfold get_or_compute
      rw [hnone]
      cases compute <;> rfl
    · unfold get_or_compute
      rw [hnone]
      cases compute <;> rfl

/-- Witness for C3, the spec's §8 scenario in tenths of a second
(`ttl = 1s = 10`, entry created at `t = 0`): at `t = 5` the cached value
is returned without computing; at `t = 15` `compute` runs again. -/
theorem ttl_cache_semantics_witness :
    ((⟨[("q", 42, 0)]⟩ : TimedCache Nat).entries.find? (fun e => e.1 == "q")
      = some ("q", 42, 0)) ∧
    get_or_compute (E := Unit) ⟨[("q", 42, 0)]⟩ "q" 5 10 (.ok 7) =
      ((.ok 42, ⟨[("q", 42, 0)]⟩), false) ∧
    (get_or_compute (E := Unit) ⟨[("q", 42, 0)]⟩ "q" 15 10 (.ok 7)).2 = true ∧
    (get_or_compute (E := Unit) ⟨[("q", 42, 0)]⟩ "q" 15 10 (.ok 7)).1.1 = .ok 7 := by
  have h5 := ttl_cache_semantics (E := Unit) ⟨[("q", 42, 0)]⟩ "q" 42 0 5 10 (.ok 7) rfl
  have h15 := ttl_cache_semantics (E := Unit) ⟨[("q", 42, 0)]⟩ "q" 42 0 15 10 (.ok 7) rfl
  exact ⟨rfl, h5.1 (by norm_num), (h15.2 (by norm_num)).1, (h15.2 (by norm_num)).2⟩

/-- Claim C2: a failed computation is never stored — after a miss, a
failing `compute` leaves the cache unchanged and a subsequent call with
the same key invokes `compute` again; only successful results are stored,
with expiry `now + ttl`. -/
theorem failed_compute_not_cached (c : TimedCache V) (k : String)
    (now1 now2 ttl : Nat) (e : E) (compute2 : Except E V)
    (hmiss : c.lookup k now1 ttl = none) (hle : now1 ≤ now2) :
    get_or_compute c k now1 ttl (.error e) = ((.error e, c), true) ∧
    (get_or_compute c k now2 ttl compute2).2 = true ∧
    (get_or_compute c k now2 ttl compute2).1.1 = compute2 ∧
    (∀ v : V, ∀ t, t < now1 + ttl →
      ((get_or_compute c k now1 ttl (Except.ok v : Except E V)).1.2).lookup k t ttl
        = some v) ∧
    (∀ v : V, ∀ t, now1 + ttl ≤ t →
      ((get_or_compute c k now1 ttl (Except.ok v : Except E V)).1.2).lookup k t ttl
        = none) := by
  have hmiss2 : c.lookup k now2 ttl = none :=
    TimedCache.lookup_none_mono c k now1 now2 ttl hle hmiss
  refine ⟨?_, ?_, ?_, ?_, ?_⟩
  · unfold get_or_compute
    rw [hmiss]
  · unfold get_or_compute
    rw [hmiss2]
    cases compute2 <;> rfl
  · unfold get_or_compute
    rw [hmiss2]
    cases compute2 <;> rfl
  · intro v t ht
    unfold get_or_compute
    rw [hmiss]
    show (c.insert k v now1).lookup k t ttl = some v
    rw [TimedCache.lookup_insert, if_pos ht]
  · intro v t ht
    unfold get_or_compute
    rw [hmiss]
    show (c.insert k v now1).lookup k t ttl = none
    rw [TimedCache.lookup_insert, if_neg (by omega)]

/-- Witness for C2: on the empty cache, a failing compute at `t = 0`
returns the error and stores nothing; the next call at `t = 1` computes
again; a successful result stored at `t = 0` with `ttl = 10` is live at
`t = 5` and gone at `t = 10`. -/
theorem failed_compute_not_cached_witness :
    TimedCache.lookup (V := Nat) ⟨[]⟩ "q" 0 10 = none ∧ 0 ≤ 1 ∧
    get_or_compute (V := Nat) ⟨[]⟩ "q" 0 10 (.error ()) = ((.error (), ⟨[]⟩), true) ∧
    (get_or_compute (V := Nat) (E := Unit) ⟨[]⟩ "q" 1 10 (.ok 5)).2 = true ∧
    (get_or_compute (V := Nat) (E := Unit) ⟨[]⟩ "q" 1 10 (.ok 5)).1.1 = .ok 5 ∧
    ((get_or_compute (V := Nat) (E := Unit) ⟨[]⟩ "q" 0 10 (.ok 5)).1.2).lookup
      "q" 5 10 = some 5 ∧
    ((get_or_compute (V := Nat) (E := Unit) ⟨[]⟩ "q" 0 10 (.ok 5)).1.2).lookup
      "q" 10 10 = none := by
  have h := failed_compute_not_cached (V := Nat) (E := Unit) ⟨[]⟩ "q" 0 1 10 ()
    (.ok 5) rfl (by norm_num)
  exact ⟨rfl, by norm_num, h.1, h.2.1, h.2.2.1,
    h.2.2.2.1 5 5 (by norm_num), h.2.2.2.2 5 10 (by norm_num)⟩

/-- Claim C10: for the item_stats endpoint, every supplied account id
belonging to a protected user is removed from the filter before the query
is built; if no account ids remain, the handler returns a 403 with
message `The requested user is protected.` and the statistics query is
never executed (the result is that error whatever `run` would compute). -/
theorem item_stats_protected_filtering (ids protected_users : List Nat)
    (account_id : Option Nat) (run : Option (List Nat) → α) :
    (∀ id ∈ ids.filter (fun id => !protected_users.contains id),
      id ∉ protected_users) ∧
    ((∀ id ∈ ids, id ∈ protected_users) →
      item_stats (some ids) account_id protected_users run =
        .error (.statusMsg 403 "The requested user is protected.")) ∧
    ((ids.filter (fun id => !protected_users.contains id)).isEmpty = false →
      item_stats_account_id_check account_id protected_users = .ok () →
      item_stats (some ids) account_id protected_users run =
        .ok (run (some (ids.filter (fun id => !protected_users.contains id))))) := by
  refine ⟨?_, ?_, ?_⟩
  · intro id hid
    have := List.of_mem_filter hid
    simpa using this
  · intro hall
    have hnil : ids.filter (fun id => !protected_users.contains id) = [] := by
      rw [List.filter_eq_nil_iff]
      intro a ha
      simpa using hall a ha
    simp only [item_stats, item_stats_account_check, hnil]
    rfl
  · intro hne hok
    simp only [item_stats, item_stats_account_check, hne, hok]
    rfl

/-- Witness for C10: with `account_ids = [1, 2]` and protected users
`[1, 2, 3]`, the handler rejects with the 403 protected-user error
regardless of the downstream query. -/
theorem item_stats_protected_filtering_witness :
    (∀ id ∈ [1, 2], id ∈ [1, 2, 3]) ∧
    item_stats (some [1, 2]) none [1, 2, 3] (fun _ => (0 : Nat)) =
      .error (.statusMsg 403 "The requested user is protected.") :=
  ⟨by decide,
   (item_stats_protected_filtering [1, 2] [1, 2, 3] none (fun _ => (0 : Nat))).2.1
     (by decide)⟩

namespace SingleFlight

/-- A step never adds or removes callers. -/
theorem step_length (compute : V) (s s' : SFState V) (h : Step compute s s') :
    s'.procs.length = s.procs.length := by
  cases h <;> simp

/-- An interleaving never adds or removes callers. -/
theorem steps_length (compute : V) (s s' : SFState V) (h : Steps compute s s') :
    s'.procs.length = s.procs.length := by
  induction h with
  | refl => rfl
  | tail _ hstep ih => rw [step_length compute _ _ hstep, ih]

/-- The invariant holds initially. -/
theorem inv_init (V : Type) (compute : V) (n : Nat) : Inv compute (init V n) := by
  refine ⟨by simp [init], ?_, Or.inl rfl, ?_, ?_⟩
  · intro _
    refine ⟨rfl, rfl, ?_⟩
    intro p hp
    exact List.eq_of_mem_replicate hp
  · intro h
    norm_num [init] at h
  · intro v hv
    have := List.eq_of_mem_replicate (show Phase.done v ∈ List.replicate n Phase.start from hv)
    cases this

/-- The invariant is preserved by every step. -/
theorem inv_step (compute : V) (s s' : SFState V)
    (hstep : Step compute s s') (hinv : Inv compute s) : Inv compute s' := by
  obtain ⟨h1, h2, h3, h4, h5⟩ := hinv
  cases hstep with
  | hit i v hi hc =>
    refine ⟨h1, ?_, h3, h4, ?_⟩
    · intro h0
      rw [(h2 h0).2.1] at hc
      cases hc
    · intro w hw
      rcases List.mem_or_eq_of_mem_set hw with hmem | heq
      · exact h5 w hmem
      · injection heq with hwv
        subst hwv
        rcases h3 with h3 | h3
        · rw [h3] at hc
          cases hc
        · rw [h3] at hc
          injection hc with h
          exact h.symm
  | register i hi hc hs =>
    have h0 : s.invocations = 0 := by
      by_contra hne
      rcases h4 (by omega) with hslot | hcs
      · rw [hs] at hslot
        cases hslot
      · rw [hc] at hcs
        cases hcs
    refine ⟨?_, ?_, h3, ?_, ?_⟩
    · show s.invocations + 1 ≤ 1
      omega
    · intro habs
      have habs' : s.invocations + 1 = 0 := habs
      omega
    · intro _
      exact Or.inl rfl
    · intro w hw
      rcases List.mem_or_eq_of_mem_set hw with hmem | heq
      · exact h5 w hmem
      · cases heq
  | join i hi hc hs =>
    refine ⟨h1, ?_, h3, h4, ?_⟩
    · intro h0
      rw [(h2 h0).1] at hs
      cases hs
    · intro w hw
      rcases List.mem_or_eq_of_mem_set hw with hmem | heq
      · exact h5 w hmem
      · cases heq
  | resolve i hi =>
    refine ⟨h1, ?_, Or.inr rfl, fun _ => Or.inr rfl, ?_⟩
    · intro h0
      have hmem : Phase.running ∈ s.procs := List.getElem?_mem hi
      have := (h2 h0).2.2 _ hmem
      cases this
    · intro w hw
      rw [List.mem_map] at hw
      obtain ⟨p, hp, hrel⟩ := hw
      rcases List.mem_or_eq_of_mem_set hp with hmem | heq
      · cases p with
        | start => cases hrel
        | waiting =>
          injection hrel with h
          exact h.symm
        | running => cases hrel
        | done u =>
          injection hrel with h
          exact h ▸ h5 u hmem
      · rw [heq] at hrel
        injection hrel with h
        exact h.symm

/-- The invariant holds in every reachable state. -/
theorem inv_steps (compute : V) (n : Nat) (s : SFState V)
    (h : Steps compute (init V n) s) : Inv compute s := by
  induction h with
  | refl => exact inv_init V compute n
  | tail _ hstep ih => exact inv_step compute _ _ hstep ih

/-- Claim C1: for any set of `N ≥ 1` concurrent calls with the same key,
`compute` is invoked at most once along every interleaving; when all
callers have finished, it was invoked exactly once and every caller
observed the same result. -/
theorem single_flight_at_most_once (compute : V) (n : Nat) (hn : 1 ≤ n)
    (s : SFState V) (hsteps : Steps compute (init V n) s) :
    s.invocations ≤ 1 ∧
    ((∀ p ∈ s.procs, ∃ v, p = Phase.done v) →
      s.invocations = 1 ∧ ∀ p ∈ s.procs, p = Phase.done compute) := by
  obtain ⟨h1, h2, h3, h4, h5⟩ := inv_steps compute n s hsteps
  refine ⟨h1, ?_⟩
  intro hdone
  have hlen : s.procs.length = n := by
    rw [steps_length compute _ _ hsteps]
    simp [init]
  have hne : s.procs ≠ [] := by
    intro hnil
    rw [hnil] at hlen
    simp at hlen
    omega
  obtain ⟨p, hp⟩ := List.exists_mem_of_ne_nil s.procs hne
  obtain ⟨v, hv⟩ := hdone p hp
  have hnz : s.invocations ≠ 0 := by
    intro h0
    have := (h2 h0).2.2 p hp
    rw [hv] at this
    cases this
  refine ⟨by omega, ?_⟩
  intro q hq
  obtain ⟨w, hw⟩ := hdone q hq
  rw [hw]
  rw [h5 w (hw ▸ hq)]

/-- Witness for C1 with two concurrent callers and `compute = 42`: the
first caller registers the in-flight slot (invoking compute), the second
joins it, the resolution releases both with 42; `compute` ran once and
both callers observed 42. -/
theorem single_flight_at_most_once_witness :
    Steps 42 (init Nat 2) ⟨some 42, false, 1, [Phase.done 42, Phase.done 42]⟩ ∧
    (⟨some 42, false, 1, [Phase.done 42, Phase.done 42]⟩ : SFState Nat).invocations = 1 ∧
    ∀ p ∈ (⟨some 42, false, 1, [Phase.done 42, Phase.done 42]⟩ : SFState Nat).procs,
      p = Phase.done 42 := by
  have s1 : Step 42 (init Nat 2) ⟨none, true, 1, [Phase.running, Phase.start]⟩ :=
    Step.register (init Nat 2) 0 rfl rfl rfl
  have s2 : Step 42 (⟨none, true, 1, [Phase.running, Phase.start]⟩ : SFState Nat)
      ⟨none, true, 1, [Phase.running, Phase.waiting]⟩ :=
    Step.join _ 1 rfl rfl rfl
  have s3 : Step 42 (⟨none, true, 1, [Phase.running, Phase.waiting]⟩ : SFState Nat)
      ⟨some 42, false, 1, [Phase.done 42, Phase.done 42]⟩ :=
    Step.resolve _ 0 rfl
  have htrace : Steps 42 (init Nat 2)
      ⟨some 42, false, 1, [Phase.done 42, Phase.done 42]⟩ :=
    Relation.ReflTransGen.head s1 (Relation.ReflTransGen.head s2
      (Relation.ReflTransGen.single s3))
  have hdone : ∀ p ∈ ([Phase.done 42, Phase.done 42] : List (Phase Nat)),
      ∃ v, p = Phase.done v := by
    intro p hp
    simp only [List.mem_cons, List.not_mem_nil, or_false] at hp
    rcases hp with h | h <;> exact ⟨42, h⟩
  have h := single_flight_at_most_once 42 2 (by norm_num) _ htrace
  exact ⟨htrace, (h.2 hdone).1, (h.2 hdone).2⟩

end SingleFlight

end DeadlockAPI
